import Mathlib

/-!
# taskgraph: topology, epoch barrier and data-request pipeline

A shallow embedding of the parts of the taskgraph sources that the
specification talks about:

* `example/topo/full_topo.go`   : the all-to-all topology,
* `example/bwmf/bwmf_task.go`   : the epoch callbacks of the block-wise
  matrix factorisation task,
* `framework/data_request.go`   : the client and server side of the data
  request pipeline.

Go values of type `uint64` are natural numbers; no arithmetic in the embedded
functions can wrap for values below `2 ^ 64`, except the conversion
`int(numOfTasks)`, which is written out.  Slices are lists, a `nil` slice of
numbers being the empty list; the capacity argument of `make` is an
allocation hint and is not represented.  Calls that leave the embedded
function (context calls, channel sends, logging, goroutine starts) are
recorded, in program order, in the list the function returns.
-/

namespace Taskgraph

/-! ## example/topo/full_topo.go -/

/-- The struct `FullTopology`. -/
structure FullTopology where
  numOfTasks : Nat
  taskID : Nat
  parents : List Nat
  children : List Nat
  deriving DecidableEq, Repr

/-- The loop `for index := ...; index < numOfTasks; index++` of `SetTaskID`,
entered with the current `index` and the slice built so far: every index
different from `taskID` is appended. -/
def SetTaskID.loop (numOfTasks taskID : Nat) (index : Nat) (acc : List Nat) : List Nat :=
  if index < numOfTasks then
    SetTaskID.loop numOfTasks taskID (index + 1)
      (if index ≠ taskID then acc ++ [index] else acc)
  else acc
termination_by numOfTasks - index

/-- The method `SetTaskID`: both loops start at `uint64(1)`. -/
def FullTopology.SetTaskID (t : FullTopology) (taskID : Nat) : FullTopology :=
  let t1 := { t with taskID := taskID }
  let t2 := { t1 with parents := SetTaskID.loop t1.numOfTasks t1.taskID 1 [] }
  { t2 with children := SetTaskID.loop t2.numOfTasks t2.taskID 1 [] }

/-- The method `GetLinkTypes`. -/
def FullTopology.GetLinkTypes (_t : FullTopology) : List String :=
  ["Parents", "Children"]

/-- The method `GetNeighbors`: the `switch` picks `parents` or `children`,
and the empty slice `res` is returned for any other link type. -/
def FullTopology.GetNeighbors (t : FullTopology) (linkType : String) (_epoch : Nat) : List Nat :=
  let res : List Nat := []
  if linkType = "Parents" then t.parents
  else if linkType = "Children" then t.children
  else res

/-- The method `SetNumberOfTasks`. -/
def FullTopology.SetNumberOfTasks (t : FullTopology) (nt : Nat) : FullTopology :=
  { t with numOfTasks := nt }

/-- The constructor `NewFullTopology`: every other field has its zero value. -/
def NewFullTopology (nTasks : Nat) : FullTopology :=
  { numOfTasks := nTasks, taskID := 0, parents := [], children := [] }

/-! ## example/bwmf/bwmf_task.go

Only the fields that the epoch callbacks read or write are kept: the matrix
shards, the optimiser and its parameters take no part in the control flow. -/

/-- A Go `map[uint64]bool`: the list of its entries, one per key. -/
abbrev GoMap := List (Nat × Bool)

/-- The assignment `m[k] = v`: the entry of `k` is overwritten when the key is
present, and a new entry is added otherwise. -/
def GoMap.set : GoMap → Nat → Bool → GoMap
  | [], k, v => [(k, v)]
  | (k', v') :: rest, k, v =>
    if k' = k then (k, v) :: rest else (k', v') :: GoMap.set rest k v

/-- The builtin `len(m)`: the number of keys. -/
def GoMap.len (m : GoMap) : Nat := m.length

/-- The keys of the map. -/
def GoMap.keys (m : GoMap) : List Nat := m.map Prod.fst

/-- The conversion `int(x)` of a `uint64` on a 64-bit platform. -/
def toInt (x : Nat) : Int :=
  if x % 2 ^ 64 < 2 ^ 63 then ((x % 2 ^ 64 : Nat) : Int) else ((x % 2 ^ 64 : Nat) : Int) - 2 ^ 64

/-- Modelled from the spec: `common.CountdownLatch` is not among the sources.
The readiness latch is created with an expected count and holds the remaining
count. -/
structure CountdownLatch where
  count : Int
  deriving DecidableEq, Repr

/-- Modelled from the spec: `common.NewCountdownLatch(expectedCount)`. -/
def NewCountdownLatch (expectedCount : Int) : CountdownLatch :=
  { count := expectedCount }

/-- Modelled from the spec: `CountDown` decrements the remaining count and is
a no-op once the count has reached zero. -/
def CountdownLatch.CountDown (l : CountdownLatch) : CountdownLatch :=
  if 0 < l.count then { count := l.count - 1 } else l

/-- The calls a callback makes on its `taskgraph.Context`, on its logger and
on its own update functions, in program order. -/
inductive Call where
  | Printf (format : String)
  | DataRequest (toID : Nat) (req : String)
  | FlagMetaToParent (meta : String)
  | IncEpoch
  | goAwait
  | localCompute
  | updateTShard
  | updateDShard
  deriving DecidableEq, Repr

/-- The struct `bwmfTask`, restricted to the fields of the epoch protocol. -/
structure bwmfTask where
  epoch : Nat
  taskID : Nat
  numOfTasks : Nat
  dtReady : CountdownLatch
  childrenReady : GoMap
  deriving DecidableEq, Repr

/-- The builder method `GetTask`: the task is the zero value of the struct,
whatever the id. -/
def GetTask (_taskID : Nat) : bwmfTask :=
  { epoch := 0, taskID := 0, numOfTasks := 0, dtReady := { count := 0 }, childrenReady := [] }

/-- The request loop of `SetEpoch`,
`for index := uint64(0); index < numOfTasks; index++`, entered with the
current `index`: one `DataRequest(index, req)` per iteration. -/
def SetEpoch.loop (numOfTasks : Nat) (req : String) (index : Nat) : List Call :=
  if index < numOfTasks then
    Call.DataRequest index req :: SetEpoch.loop numOfTasks req (index + 1)
  else []
termination_by numOfTasks - index

/-- The goroutine started by `SetEpoch`, from the moment `dtReady.Await()`
returns: local computation, the update chosen by the parity of the epoch, and
the announcement to the parent. -/
def SetEpoch.goroutine (this : bwmfTask) : List Call :=
  [Call.localCompute,
   if this.epoch % 2 = 0 then Call.updateTShard else Call.updateDShard,
   Call.FlagMetaToParent "computed"]

/-- The method `SetEpoch`: the epoch is stored, the announcement map and the
latch are replaced by fresh ones, the data requests are issued and the
waiting goroutine is started. -/
def bwmfTask.SetEpoch (this : bwmfTask) (epoch : Nat) : bwmfTask × List Call :=
  let this1 := { this with epoch := epoch }
  let this2 := { this1 with childrenReady := [] }
  let this3 := { this2 with dtReady := NewCountdownLatch (toInt this2.numOfTasks) }
  let requests :=
    if this3.epoch % 2 = 0 then SetEpoch.loop this3.numOfTasks "getD" 0
    else SetEpoch.loop this3.numOfTasks "getT" 0
  (this3, [Call.Printf "slave SetEpoch, task: %d, epoch: %d\n"] ++ requests ++ [Call.goAwait])

/-- The method `ChildMetaReady`: the announcement is recorded when the meta
is `"computed"`; the method returns while fewer than `numOfTasks` keys are
recorded, and calls `IncEpoch` otherwise. -/
def bwmfTask.ChildMetaReady (this : bwmfTask) (childID : Nat) (meta : String) :
    bwmfTask × List Call :=
  let this1 :=
    if meta = "computed" then
      { this with childrenReady := this.childrenReady.set childID true }
    else this
  if this1.childrenReady.len < this1.numOfTasks then (this1, [])
  else (this1, [Call.IncEpoch])

/-- The method `ChildDataReady`: whatever the parity of the epoch, the
response is decoded and the latch is counted down. -/
def bwmfTask.ChildDataReady (this : bwmfTask) (_childID : Nat) (_req : String)
    (_resp : List Nat) : bwmfTask :=
  { this with dtReady := this.dtReady.CountDown }

/-- A sequence of `ChildMetaReady` calls, each given as child id and meta:
the calls that each of them makes on the context, in order. -/
def runChildMetaReady (this : bwmfTask) : List (Nat × String) → List (List Call)
  | [] => []
  | (childID, meta) :: rest =>
    ((this.ChildMetaReady childID meta).2) ::
      runChildMetaReady (this.ChildMetaReady childID meta).1 rest

/-- The number of `IncEpoch` calls made in a sequence of callbacks. -/
def incEpochCount (made : List (List Call)) : Nat :=
  (made.map (fun calls => calls.count Call.IncEpoch)).sum

/-- The id that one call of `ChildMetaReady` records in the map, if any. -/
def recorded (childID : Nat) (meta : String) : List Nat :=
  if meta = "computed" then [childID] else []

/-- The child ids that announced `"computed"` in a sequence of calls. -/
def computedIDs (calls : List (Nat × String)) : List Nat :=
  (calls.filter (fun c => decide (c.2 = "computed"))).map Prod.fst

/-! ## framework/data_request.go

The declarations of `framework`, `dataRequest` and `dataResponse`, the
constant `heartbeatInterval` and the event loop are not among the sources.
The two structs carry the fields that the functions of this file read and
write; the directory, the transport and the task are parameters. -/

/-- A protocol message, opaque to the framework. -/
abbrev Message := List Nat

/-- A Go `[]byte`; `none` is the `nil` slice. -/
abbrev Bytes := Option (List Nat)

/-- The struct `dataRequest`; `dataChan` is the identity of the channel. -/
structure dataRequest where
  taskID : Nat
  epoch : Nat
  linkType : String
  req : String
  retry : Bool
  method : String
  input : Message
  dataChan : Nat
  deriving DecidableEq, Repr

/-- The struct `dataResponse`.  The lower-case fields are those written by
`sendRequest` and `handleDataReq` and read by `sendResponse`; the upper-case
ones are those read by `handleDataResp`. -/
structure dataResponse where
  taskID : Nat
  epoch : Nat
  linkType : String
  req : String
  data : Bytes
  dataChan : Nat
  input : Message
  output : Message
  TaskID : Nat
  Method : String
  Req : Message
  Data : Message
  deriving DecidableEq, Repr

/-- The zero value of `dataResponse`, which a composite literal completes. -/
def dataResponse.zero : dataResponse :=
  { taskID := 0, epoch := 0, linkType := "", req := "", data := none, dataChan := 0,
    input := [], output := [], TaskID := 0, Method := "", Req := [], Data := [] }

/-- Modelled from the spec: the declaration of the struct `framework` is not
among the sources.  A node has a computation name and a current epoch
counter; its channels appear as the sends recorded in `Effect`. -/
structure framework where
  name : String
  epoch : Nat
  deriving DecidableEq, Repr

/-- What the functions of this file do to the rest of the node, in program
order: logging, goroutine starts, sleeping, channel sends and the call of the
task's `DataReady`. -/
inductive Effect where
  | Panicf (format : String)
  | Printf (format : String)
  | Fatalf (format : String)
  | goRetrySendRequest (dr : dataRequest)
  | Sleep (duration : Nat)
  | dataRespChan (resp : dataResponse)
  | dataReqtoSendChan (dr : dataRequest)
  | dataRespToSendChan (resp : dataResponse)
  | dataChan (chan : Nat) (data : Bytes)
  | DataReady (taskID : Nat) (method : String) (req : Message) (data : Message)
  deriving DecidableEq, Repr

/-- The collaborators of `sendRequest`: the directory lookup
`etcdutil.GetAddress(client, name, taskID)`, `grpc.Dial(addr, ...)` giving a
connection handle, the task's `CreateOutputMessage(method)`, and
`grpc.Invoke(ctx, method, input, reply, cc)`, which gives an error text or
the reply as filled in by the remote node. -/
structure Remote where
  GetAddress : String → Nat → Except String String
  Dial : String → Except String Nat
  CreateOutputMessage : String → Message
  Invoke : String → Message → Message → Nat → Except String Message

/-- The library function `strings.Contains`. -/
def strings.Contains (s substr : String) : Bool :=
  s.toList.tails.any (fun t => substr.toList.isPrefixOf t)

/-- The function `sendRequest`.  `Panicf` does not return; a failed dial and
a failed invocation start `retrySendRequest` in a goroutine, unless the error
text of the invocation contains `"server epoch mismatch"`. -/
def sendRequest (env : Remote) (f : framework) (dr : dataRequest) : List Effect :=
  match env.GetAddress f.name dr.taskID with
  | .error _ => [Effect.Panicf "getAddress(%d) failed: %v"]
  | .ok addr =>
    let logged :=
      if dr.retry then Effect.Printf "retry request data from task %d, addr %s"
      else Effect.Printf "request data from task %d, addr %s"
    match env.Dial addr with
    | .error _ =>
      [logged, Effect.Printf "grpc.Dial from task %d (addr: %s) failed: %v",
        Effect.goRetrySendRequest dr]
    | .ok cc =>
      let reply := env.CreateOutputMessage dr.method
      match env.Invoke dr.method dr.input reply cc with
      | .error err =>
        if strings.Contains err "server epoch mismatch" then [logged]
        else
          [logged,
            Effect.Printf "grpc.Invoke from task %d (addr: %s), method: %s, failed: %v",
            Effect.goRetrySendRequest dr]
      | .ok reply =>
        [logged,
          Effect.dataRespChan
            { dataResponse.zero with
              epoch := dr.epoch, taskID := dr.taskID, linkType := dr.linkType,
              input := dr.input, output := reply }]

/-- The function `retrySendRequest`, run as a goroutine: it sleeps for two
heartbeat intervals, sets the retry flag of the request and puts the request
back on the queue of requests to send. -/
def retrySendRequest (heartbeatInterval : Nat) (dr : dataRequest) : List Effect :=
  [Effect.Sleep (2 * heartbeatInterval), Effect.dataReqtoSendChan { dr with retry := true }]

/-- The function `sendResponse`. -/
def sendResponse (dr : dataResponse) : List Effect :=
  [Effect.dataChan dr.dataChan dr.data]

/-- A Go `chan []byte`: capacity, buffered values and whether it is closed. -/
structure Chan where
  cap : Nat
  buf : List Bytes
  closed : Bool
  deriving DecidableEq, Repr

/-- The builtin `make(chan []byte, cap)`. -/
def Chan.make (cap : Nat) : Chan := { cap := cap, buf := [], closed := false }

/-- A send `c <- b` that can proceed: `none` when the buffer is full (with no
receiver the send blocks) or the channel is closed. -/
def Chan.send (c : Chan) (b : Bytes) : Option Chan :=
  if c.closed = false ∧ c.buf.length < c.cap then some { c with buf := c.buf ++ [b] } else none

/-- A receive `data, ok := <-c` that can proceed: the oldest buffered value
with `ok = true`, or the zero value with `ok = false` once the channel is
closed and drained; `none` when the receive blocks. -/
def Chan.recv (c : Chan) : Option (Bytes × Bool × Chan) :=
  match c.buf with
  | b :: rest => some (b, true, { c with buf := rest })
  | [] => if c.closed then some (none, false, c) else none

/-- The two cases of the `select` in `handleDataReq`. -/
inductive SelectCase where
  | dataReceiver
  | epochPassed
  deriving DecidableEq, Repr

/-- The goroutine of `handleDataReq`, for the case that the `select` takes.
`epochPassed` tells whether a receive from `f.epochPassed` can proceed when
the `select` runs.  A `select` takes one of the cases that can proceed, any
of them when several can; the result is `none` for a case that cannot
proceed. -/
def handleDataReq.goroutine (dr : dataRequest) (dataReceiver : Chan) (epochPassed : Bool)
    (taken : SelectCase) : Option (List Effect) :=
  match taken with
  | SelectCase.dataReceiver =>
    match dataReceiver.recv with
    | none => none
    | some (data, ok, _) =>
      if !ok || data == none then some []
      else
        some [Effect.dataRespToSendChan
          { dataResponse.zero with
            taskID := dr.taskID, epoch := dr.epoch, req := dr.req, data := data,
            dataChan := dr.dataChan }]
  | SelectCase.epochPassed => if epochPassed then some [] else none

/-- The function `handleDataReq`, together with the goroutine it starts.
`Serve` is the task's `Serve(taskID, linkType, req)`, giving the payload and
an optional error; `Fatalf` ends the process.  The result is `none` when the
run described by `taken` is not a run of the program. -/
def handleDataReq (Serve : Nat → String → String → Bytes × Option String) (dr : dataRequest)
    (epochPassed : Bool) (taken : SelectCase) : Option (List Effect) :=
  let dataReceiver := Chan.make 1
  match Serve dr.taskID dr.linkType dr.req with
  | (_, some _) => some [Effect.Fatalf "ServeAsParent Error with id = %d, %v\n"]
  | (b, none) =>
    match dataReceiver.send b with
    | none => none
    | some dataReceiver => handleDataReq.goroutine dr dataReceiver epochPassed taken

/-- The function `handleDataResp`: the task's `DataReady` is called with the
fields of the response. -/
def handleDataResp (_f : framework) (resp : dataResponse) : List Effect :=
  [Effect.DataReady resp.TaskID resp.Method resp.Req resp.Data]

/-- The requests for which a goroutine running `retrySendRequest` is started. -/
def retriesScheduled : List Effect → List dataRequest
  | [] => []
  | Effect.goRetrySendRequest dr :: rest => dr :: retriesScheduled rest
  | _ :: rest => retriesScheduled rest

/-- The responses put on the completion queue `dataRespChan`. -/
def responsesPushed : List Effect → List dataResponse
  | [] => []
  | Effect.dataRespChan resp :: rest => resp :: responsesPushed rest
  | _ :: rest => responsesPushed rest

/-- The calls of the task's `DataReady`, by the id they are made with. -/
def dataReadyCalls : List Effect → List Nat
  | [] => []
  | Effect.DataReady taskID _ _ _ :: rest => taskID :: dataReadyCalls rest
  | _ :: rest => dataReadyCalls rest

/-! ## example/bwmf/bwmf_task.go: requests and serving

The contents of the shards are numerical data and do not enter the control
flow; `json.Marshal` applied to a local shard is a parameter. -/

/-- The data requests among the calls of a callback, as target id and request
string. -/
def dataRequests : List Call → List (Nat × String)
  | [] => []
  | Call.DataRequest toID req :: rest => (toID, req) :: dataRequests rest
  | _ :: rest => dataRequests rest

/-- The two local shards of a task, the fields `shardedD` and `shardedT`. -/
inductive LocalShard where
  | shardedD
  | shardedT
  deriving DecidableEq, Repr

/-- What the goroutine of `ServeAsParent` does, in program order: it encodes
a local shard, and either ends the process with `Fatalf` or sends the bytes
on `dataReceiver`. -/
inductive ServeStep where
  | Marshal (shard : LocalShard)
  | Fatalf (format : String)
  | dataReceiver (b : Bytes)
  deriving DecidableEq, Repr

/-- The method `ServeAsParent`: the shard is chosen by the parity of the
task's epoch; `fromID` and `req` are not read.  `Marshal shard` is the result
of `json.Marshal` on that shard, the bytes and an optional error. -/
def bwmfTask.ServeAsParent (this : bwmfTask) (_fromID : Nat) (_req : String)
    (Marshal : LocalShard → Bytes × Option String) : List ServeStep :=
  if this.epoch % 2 = 0 then
    match Marshal LocalShard.shardedD with
    | (_, some _) =>
      [ServeStep.Marshal LocalShard.shardedD,
        ServeStep.Fatalf "Slave can't encode shardedD error: %v\n"]
    | (b, none) => [ServeStep.Marshal LocalShard.shardedD, ServeStep.dataReceiver b]
  else
    match Marshal LocalShard.shardedT with
    | (_, some _) =>
      [ServeStep.Marshal LocalShard.shardedT,
        ServeStep.Fatalf "Slave can't encode shardedT error: %v\n"]
    | (b, none) => [ServeStep.Marshal LocalShard.shardedT, ServeStep.dataReceiver b]

/-- The method `ServeAsChild`: the body is empty. -/
def bwmfTask.ServeAsChild (_this : bwmfTask) (_fromID : Nat) (_req : String) : List ServeStep :=
  []

/-- The shards that a serve encodes. -/
def marshalled : List ServeStep → List LocalShard
  | [] => []
  | ServeStep.Marshal shard :: rest => shard :: marshalled rest
  | _ :: rest => marshalled rest

/-- The payloads that a serve sends on `dataReceiver`. -/
def served : List ServeStep → List Bytes
  | [] => []
  | ServeStep.dataReceiver b :: rest => b :: served rest
  | _ :: rest => served rest

/-- The request string by which `SetEpoch` asks for a shard: `"getD"` for the
D shard and `"getT"` for the T shard. -/
def LocalShard.request : LocalShard → String
  | LocalShard.shardedD => "getD"
  | LocalShard.shardedT => "getT"

/-- The update function of a shard: `updateDShard` and `updateTShard`. -/
def LocalShard.update : LocalShard → Call
  | LocalShard.shardedD => Call.updateDShard
  | LocalShard.shardedT => Call.updateTShard

/-! ## Lemmas on the topology -/

/-- The loop appends, in increasing order, the indices from `index` up to
`numOfTasks` that differ from `taskID`. -/
theorem SetTaskID.loop_eq (numOfTasks taskID : Nat) :
    ∀ (k index : Nat) (acc : List Nat), numOfTasks - index = k →
      SetTaskID.loop numOfTasks taskID index acc
        = acc ++ (List.range' index (numOfTasks - index)).filter (fun i => decide (i ≠ taskID)) := by
  intro k
  induction k with
  | zero =>
    intro index acc hk
    rw [SetTaskID.loop]
    have : ¬ index < numOfTasks := by omega
    simp [this, hk]
  | succ k ih =>
    intro index acc hk
    rw [SetTaskID.loop]
    have hlt : index < numOfTasks := by omega
    have hstep : numOfTasks - index = (numOfTasks - (index + 1)) + 1 := by omega
    rw [if_pos hlt, ih (index + 1) _ (by omega), hstep, List.range'_succ]
    by_cases hi : index = taskID
    · simp [hi, List.filter_cons]
    · simp [hi, List.filter_cons]

/-- What `GetNeighbors` returns for the two link types after `SetTaskID`. -/
theorem neighbors_eq (N t : Nat) (linkType : String) (epoch : Nat)
    (h : linkType = "Parents" ∨ linkType = "Children") :
    ((NewFullTopology N).SetTaskID t).GetNeighbors linkType epoch
      = (List.range' 1 (N - 1)).filter (fun i => decide (i ≠ t)) := by
  rcases h with h | h <;>
    simp [h, FullTopology.GetNeighbors, FullTopology.SetTaskID, NewFullTopology,
      SetTaskID.loop_eq N t (N - 1) 1 [] rfl]

/-- Membership in the slice `GetNeighbors` returns for the two link types. -/
theorem mem_neighbors_iff (N t : Nat) (linkType : String) (epoch : Nat)
    (h : linkType = "Parents" ∨ linkType = "Children") (i : Nat) :
    i ∈ ((NewFullTopology N).SetTaskID t).GetNeighbors linkType epoch
      ↔ 1 ≤ i ∧ i < N ∧ i ≠ t := by
  rw [neighbors_eq N t linkType epoch h]
  simp only [List.mem_filter, List.mem_range'_1, decide_eq_true_eq]
  constructor
  · rintro ⟨⟨h1, h2⟩, h3⟩
    exact ⟨h1, by omega, h3⟩
  · rintro ⟨h1, h2, h3⟩
    exact ⟨⟨h1, by omega⟩, h3⟩

/-- C1, as the code behaves: with three nodes, the topology configured for
node 1 returns only node 2 for "Parents" and for "Children"; node 0, which
is another node, is missing, and the slice has one entry where N - 1 = 2 are
announced. -/
theorem C1_full_topology_omits_node_zero :
    ((NewFullTopology 3).SetTaskID 1).GetNeighbors "Parents" 0 = [2]
      ∧ ((NewFullTopology 3).SetTaskID 1).GetNeighbors "Children" 0 = [2] := by
  constructor
  · rw [neighbors_eq 3 1 "Parents" 0 (Or.inl rfl)]; decide
  · rw [neighbors_eq 3 1 "Children" 0 (Or.inr rfl)]; decide

/-- C2: for every node count N ≥ 1, node id t < N, link kind string and
epoch, the slice returned by `GetNeighbors` after `SetTaskID t` does not
contain t. -/
theorem C2_neighbors_never_contain_self (N t : Nat) (linkType : String) (epoch : Nat)
    (_hN : 1 ≤ N) (_ht : t < N) :
    t ∉ ((NewFullTopology N).SetTaskID t).GetNeighbors linkType epoch := by
  by_cases h : linkType = "Parents" ∨ linkType = "Children"
  · rw [mem_neighbors_iff N t linkType epoch h]
    intro hmem
    exact hmem.2.2 rfl
  · have h1 : linkType ≠ "Parents" := fun e => h (Or.inl e)
    have h2 : linkType ≠ "Children" := fun e => h (Or.inr e)
    simp [FullTopology.GetNeighbors, h1, h2]

/-- Witness of C2: three nodes, node 1, link kind "Parents", epoch 4. -/
theorem C2_neighbors_never_contain_self_witness :
    1 ≤ 3 ∧ 1 < 3 ∧ 1 ∉ ((NewFullTopology 3).SetTaskID 1).GetNeighbors "Parents" 4 :=
  ⟨by decide, by decide,
    C2_neighbors_never_contain_self 3 1 "Parents" 4 (by decide) (by decide)⟩

/-- C3, as the code behaves: with two nodes, node 0 lists node 1 as a child,
but node 1 does not list node 0 as a parent. -/
theorem C3_child_not_listed_as_parent :
    1 ∈ ((NewFullTopology 2).SetTaskID 0).GetNeighbors "Children" 0
      ∧ 0 ∉ ((NewFullTopology 2).SetTaskID 1).GetNeighbors "Parents" 0 := by
  constructor
  · rw [mem_neighbors_iff 2 0 "Children" 0 (Or.inr rfl)]; decide
  · rw [mem_neighbors_iff 2 1 "Parents" 0 (Or.inl rfl)]; decide

/-! ## Lemmas on the announcement map and on `ChildMetaReady` -/

/-- The keys after `m[k] = v`: unchanged when `k` is a key, extended by `k`
otherwise. -/
theorem GoMap.keys_set (m : GoMap) (k : Nat) (v : Bool) :
    (GoMap.set m k v).keys = if k ∈ m.keys then m.keys else m.keys ++ [k] := by
  induction m with
  | nil => simp [GoMap.set, GoMap.keys]
  | cons e rest ih =>
    obtain ⟨k', v'⟩ := e
    by_cases hk : k' = k
    · simp [GoMap.set, GoMap.keys, hk]
    · have hk2 : ¬ k = k' := fun e => hk e.symm
      have ih2 : List.map Prod.fst (GoMap.set rest k v)
          = if k ∈ List.map Prod.fst rest then List.map Prod.fst rest
            else List.map Prod.fst rest ++ [k] := ih
      by_cases hin : k ∈ List.map Prod.fst rest
      · rw [if_pos hin] at ih2
        have hin2 : k ∈ List.map Prod.fst ((k', v') :: rest) := by
          simp only [List.map_cons, List.mem_cons]; exact Or.inr hin
        simp only [GoMap.keys]
        rw [if_pos hin2]
        simp [GoMap.set, hk, ih2]
      · rw [if_neg hin] at ih2
        have hin2 : ¬ k ∈ List.map Prod.fst ((k', v') :: rest) := by
          simp only [List.map_cons, List.mem_cons, not_or]; exact ⟨hk2, hin⟩
        simp only [GoMap.keys]
        rw [if_neg hin2]
        simp [GoMap.set, hk, ih2]

/-- No key is repeated after `m[k] = v` when none was before. -/
theorem GoMap.nodup_keys_set (m : GoMap) (k : Nat) (v : Bool) (h : m.keys.Nodup) :
    (GoMap.set m k v).keys.Nodup := by
  rw [GoMap.keys_set]
  by_cases hin : k ∈ m.keys
  · rw [if_pos hin]; exact h
  · rw [if_neg hin]
    exact List.Nodup.append h (List.nodup_singleton k) (by simpa using hin)

/-- The set of keys after `m[k] = v`. -/
theorem GoMap.toFinset_keys_set (m : GoMap) (k : Nat) (v : Bool) :
    (GoMap.set m k v).keys.toFinset = insert k m.keys.toFinset := by
  rw [GoMap.keys_set]
  by_cases hin : k ∈ m.keys
  · rw [if_pos hin]
    exact (Finset.insert_eq_of_mem (List.mem_toFinset.mpr hin)).symm
  · rw [if_neg hin]
    ext x
    simp [or_comm]

/-- With no repeated key, `len(m)` is the number of distinct keys. -/
theorem GoMap.len_eq_card (m : GoMap) (h : m.keys.Nodup) :
    m.len = m.keys.toFinset.card := by
  rw [List.toFinset_card_of_nodup h]
  simp [GoMap.len, GoMap.keys]

/-- One call of `ChildMetaReady` keeps the keys free of repetition. -/
theorem ChildMetaReady_nodup (this : bwmfTask) (childID : Nat) (meta : String)
    (h : this.childrenReady.keys.Nodup) :
    (this.ChildMetaReady childID meta).1.childrenReady.keys.Nodup := by
  unfold bwmfTask.ChildMetaReady
  by_cases hm : meta = "computed"
  · simp only [hm, if_true]
    split <;> exact GoMap.nodup_keys_set _ _ _ h
  · simp only [hm, if_false]
    split <;> exact h

/-- One call of `ChildMetaReady` adds the recorded id to the set of keys. -/
theorem ChildMetaReady_keys (this : bwmfTask) (childID : Nat) (meta : String) :
    (this.ChildMetaReady childID meta).1.childrenReady.keys.toFinset
      = this.childrenReady.keys.toFinset ∪ (recorded childID meta).toFinset := by
  unfold bwmfTask.ChildMetaReady recorded
  by_cases hm : meta = "computed"
  · simp only [hm, if_true]
    split <;> simp [GoMap.toFinset_keys_set, Finset.union_comm, Finset.insert_eq]
  · simp only [hm, if_false]
    split <;> simp

/-- One call of `ChildMetaReady` leaves `numOfTasks` unchanged. -/
theorem ChildMetaReady_numOfTasks (this : bwmfTask) (childID : Nat) (meta : String) :
    (this.ChildMetaReady childID meta).1.numOfTasks = this.numOfTasks := by
  unfold bwmfTask.ChildMetaReady
  by_cases hm : meta = "computed"
  · simp only [hm, if_true]
    split <;> rfl
  · simp only [hm, if_false]
    split <;> rfl

/-- A call of `ChildMetaReady` that calls `IncEpoch` leaves at least
`numOfTasks` keys in the map. -/
theorem ChildMetaReady_IncEpoch (this : bwmfTask) (childID : Nat) (meta : String)
    (h : Call.IncEpoch ∈ (this.ChildMetaReady childID meta).2) :
    this.numOfTasks ≤ (this.ChildMetaReady childID meta).1.childrenReady.len := by
  unfold bwmfTask.ChildMetaReady at h ⊢
  by_cases hm : meta = "computed"
  · simp only [hm, if_true] at h ⊢
    split at h
    · simp at h
    · rename_i hlt
      rw [if_neg hlt]
      exact Nat.le_of_not_lt hlt
  · simp only [hm, if_false] at h ⊢
    split at h
    · simp at h
    · rename_i hlt
      rw [if_neg hlt]
      exact Nat.le_of_not_lt hlt

/-- The ids announced as computed, call by call. -/
theorem computedIDs_cons (childID : Nat) (meta : String) (rest : List (Nat × String)) :
    computedIDs ((childID, meta) :: rest) = recorded childID meta ++ computedIDs rest := by
  unfold computedIDs recorded
  by_cases hm : meta = "computed"
  · simp [hm, List.filter_cons]
  · simp [hm, List.filter_cons]

/-- The barrier invariant: when the call at position `k` of a sequence calls
`IncEpoch`, the keys present before the sequence together with the ids
announced as computed up to that call are at least `numOfTasks` many. -/
theorem runChildMetaReady_IncEpoch (calls : List (Nat × String)) :
    ∀ (this : bwmfTask) (k : Nat) (made : List Call),
      this.childrenReady.keys.Nodup →
      (runChildMetaReady this calls)[k]? = some made →
      Call.IncEpoch ∈ made →
      this.numOfTasks
        ≤ (this.childrenReady.keys.toFinset ∪ (computedIDs (calls.take (k + 1))).toFinset).card := by
  induction calls with
  | nil =>
    intro this k made _ hk _
    simp [runChildMetaReady] at hk
  | cons c rest ih =>
    obtain ⟨childID, meta⟩ := c
    intro this k made hnd hk hinc
    cases k with
    | zero =>
      simp only [runChildMetaReady, List.getElem?_cons_zero, Option.some.injEq] at hk
      subst hk
      have h1 := ChildMetaReady_IncEpoch this childID meta hinc
      rw [GoMap.len_eq_card _ (ChildMetaReady_nodup this childID meta hnd),
        ChildMetaReady_keys] at h1
      have htake : computedIDs (List.take (0 + 1) ((childID, meta) :: rest))
          = recorded childID meta := by
        rw [show List.take (0 + 1) ((childID, meta) :: rest) = [(childID, meta)] from by simp,
          computedIDs_cons]
        simp [computedIDs]
      rw [htake]
      exact h1
    | succ k =>
      simp only [runChildMetaReady, List.getElem?_cons_succ] at hk
      have h1 := ih (this.ChildMetaReady childID meta).1 k made
        (ChildMetaReady_nodup this childID meta hnd) hk hinc
      rw [ChildMetaReady_numOfTasks, ChildMetaReady_keys] at h1
      simpa [computedIDs_cons, List.toFinset_append, Finset.union_assoc] using h1

/-- The ids announced as computed in a part of the sequence are ids of calls
of the sequence. -/
theorem mem_computedIDs (calls : List (Nat × String)) (x : Nat) :
    x ∈ computedIDs calls ↔ (x, "computed") ∈ calls := by
  unfold computedIDs
  simp only [List.mem_map, List.mem_filter, decide_eq_true_eq]
  constructor
  · rintro ⟨⟨a, b⟩, ⟨hmem, hb⟩, ha⟩
    simp only at hb ha
    subst hb; subst ha
    exact hmem
  · intro h
    exact ⟨(x, "computed"), ⟨h, rfl⟩, rfl⟩

/-- C4: after `SetEpoch`, for every node count and every sequence of
`ChildMetaReady` calls, if the call at position `k` calls `IncEpoch` then at
least `numOfTasks` distinct child ids have announced the meta "computed" in
the calls up to and including that one; announcements with another meta do
not enter the count. -/
theorem C4_IncEpoch_only_after_quorum (this : bwmfTask) (epoch : Nat)
    (calls : List (Nat × String)) (k : Nat) (made : List Call)
    (hk : (runChildMetaReady (this.SetEpoch epoch).1 calls)[k]? = some made)
    (hinc : Call.IncEpoch ∈ made) :
    this.numOfTasks ≤ (computedIDs (calls.take (k + 1))).toFinset.card := by
  have h := runChildMetaReady_IncEpoch calls (this.SetEpoch epoch).1 k made
    (by simp [bwmfTask.SetEpoch, GoMap.keys]) hk hinc
  simpa [bwmfTask.SetEpoch, GoMap.keys] using h

/-- Witness of C4: two nodes; the announcements of nodes 0 and 1 arrive, and
the second call is the one that calls `IncEpoch`. -/
theorem C4_IncEpoch_only_after_quorum_witness :
    (2 : Nat) ≤ (computedIDs (([(0, "computed"), (1, "computed")] : List (Nat × String)).take
      (1 + 1))).toFinset.card :=
  C4_IncEpoch_only_after_quorum
    { GetTask 0 with numOfTasks := 2 }
    1 [(0, "computed"), (1, "computed")] 1 [Call.IncEpoch] (by decide) (by decide)

/-- C5: for every node count N ≥ 1 and every sequence of `ChildMetaReady`
calls of one epoch whose child ids all lie in [0, N), if no call carries the
announcement "computed" of node 0 then `IncEpoch` is called zero times in
the whole sequence. -/
theorem C5_no_advance_without_node_zero (this : bwmfTask) (epoch : Nat)
    (calls : List (Nat × String))
    (hN : 1 ≤ this.numOfTasks)
    (hids : ∀ c ∈ calls, c.1 < this.numOfTasks)
    (hself : (0, "computed") ∉ calls) :
    incEpochCount (runChildMetaReady (this.SetEpoch epoch).1 calls) = 0 := by
  unfold incEpochCount
  apply List.sum_eq_zero
  intro n hn
  obtain ⟨made, hmem, rfl⟩ := List.mem_map.mp hn
  rw [List.count_eq_zero]
  intro hinc
  obtain ⟨k, hk⟩ := List.mem_iff_getElem?.mp hmem
  have h := runChildMetaReady_IncEpoch calls (this.SetEpoch epoch).1 k made
    (by simp [bwmfTask.SetEpoch, GoMap.keys]) hk hinc
  have h2 : this.numOfTasks ≤ (computedIDs (calls.take (k + 1))).toFinset.card := by
    simpa [bwmfTask.SetEpoch, GoMap.keys] using h
  have hsub : (computedIDs (calls.take (k + 1))).toFinset ⊆ Finset.Ico 1 this.numOfTasks := by
    intro x hx
    rw [List.mem_toFinset, mem_computedIDs] at hx
    have hx2 : (x, "computed") ∈ calls := List.mem_of_mem_take hx
    have hlt := hids _ hx2
    have hne : x ≠ 0 := by
      intro h0
      subst h0
      exact hself hx2
    rw [Finset.mem_Ico]
    exact ⟨Nat.pos_of_ne_zero hne, hlt⟩
  have hcard := Finset.card_le_card hsub
  rw [Nat.card_Ico] at hcard
  omega

/-- Witness of C5: three nodes; the announcements of nodes 1 and 2 alone do
not advance the epoch. -/
theorem C5_no_advance_without_node_zero_witness :
    incEpochCount
        (runChildMetaReady (bwmfTask.SetEpoch { GetTask 0 with numOfTasks := 3 } 0).1
          [(1, "computed"), (2, "computed")])
      = 0 :=
  C5_no_advance_without_node_zero
    { GetTask 0 with numOfTasks := 3 }
    0 [(1, "computed"), (2, "computed")] (by decide) (by decide) (by decide)

/-- C6, as the code behaves: a task whose `taskID` is 1, in a computation of
two nodes, calls `IncEpoch` in the second of two `ChildMetaReady` calls that
record the announcements of nodes 0 and 1. -/
theorem C6_non_aggregator_calls_IncEpoch :
    runChildMetaReady
        (bwmfTask.SetEpoch { GetTask 1 with taskID := 1, numOfTasks := 2 } 1).1
        [(0, "computed"), (1, "computed")]
      = [[], [Call.IncEpoch]] := by
  decide

/-! ## The data-request pipeline -/

/-- The log line written before dialling starts no retry. -/
theorem retriesScheduled_logged (c : Prop) [Decidable c] (a b : String) (rest : List Effect) :
    retriesScheduled ((if c then Effect.Printf a else Effect.Printf b) :: rest)
      = retriesScheduled rest := by
  split <;> rfl

/-- The log line written before dialling puts nothing on the completion queue. -/
theorem responsesPushed_logged (c : Prop) [Decidable c] (a b : String) (rest : List Effect) :
    responsesPushed ((if c then Effect.Printf a else Effect.Printf b) :: rest)
      = responsesPushed rest := by
  split <;> rfl

/-- C7, as the code behaves: on a node whose current epoch is 5, a response
tagged with epoch 3 is handed to the task: `handleDataResp` calls
`DataReady`. -/
theorem C7_stale_response_reaches_task :
    ({ dataResponse.zero with epoch := 3, TaskID := 2, Method := "getD" } : dataResponse).epoch
        ≠ ({ name := "bwmf", epoch := 5 } : framework).epoch
      ∧ handleDataResp { name := "bwmf", epoch := 5 }
          { dataResponse.zero with epoch := 3, TaskID := 2, Method := "getD" }
        = [Effect.DataReady 2 "getD" [] []] := by
  constructor
  · decide
  · rfl

/-- C7, amended: `handleDataResp` does not look at epochs.  For every node and
every response, whatever the epoch tag of the response and the current epoch
of the node, it calls the task's `DataReady` exactly once, with the fields of
the response, and does nothing else. -/
theorem C7_handleDataResp_always_delivers (f : framework) (resp : dataResponse) :
    handleDataResp f resp = [Effect.DataReady resp.TaskID resp.Method resp.Req resp.Data]
      ∧ dataReadyCalls (handleDataResp f resp) = [resp.TaskID] := by
  constructor <;> rfl

/-- C8: `sendRequest` starts a retry exactly when the address was resolved and
then either the dial failed or the invocation failed with an error text that
does not contain "server epoch mismatch"; it then starts one retry, for the
request itself, and otherwise none.  The retry puts the request back on the
queue of requests to send once, with the retry flag set and every other field
as it was. -/
theorem C8_retry_iff_transient_failure (env : Remote) (f : framework) (dr : dataRequest)
    (heartbeatInterval : Nat) :
    (((∃ addr, env.GetAddress f.name dr.taskID = .ok addr ∧
          ((∃ e, env.Dial addr = .error e) ∨
            (∃ cc e, env.Dial addr = .ok cc ∧
              env.Invoke dr.method dr.input (env.CreateOutputMessage dr.method) cc = .error e ∧
              strings.Contains e "server epoch mismatch" = false)))
        ∧ retriesScheduled (sendRequest env f dr) = [dr])
      ∨ ((¬ ∃ addr, env.GetAddress f.name dr.taskID = .ok addr ∧
          ((∃ e, env.Dial addr = .error e) ∨
            (∃ cc e, env.Dial addr = .ok cc ∧
              env.Invoke dr.method dr.input (env.CreateOutputMessage dr.method) cc = .error e ∧
              strings.Contains e "server epoch mismatch" = false)))
        ∧ retriesScheduled (sendRequest env f dr) = []))
    ∧ retrySendRequest heartbeatInterval dr
        = [Effect.Sleep (2 * heartbeatInterval),
           Effect.dataReqtoSendChan
            ⟨dr.taskID, dr.epoch, dr.linkType, dr.req, true, dr.method, dr.input, dr.dataChan⟩] := by
  refine ⟨?_, rfl⟩
  unfold sendRequest
  cases hA : env.GetAddress f.name dr.taskID with
  | error e =>
    right
    simp [retriesScheduled]
  | ok addr =>
    cases hD : env.Dial addr with
    | error e =>
      left
      simp [retriesScheduled, retriesScheduled_logged, hD]
    | ok cc =>
      cases hI : env.Invoke dr.method dr.input (env.CreateOutputMessage dr.method) cc with
      | error e =>
        by_cases hc : strings.Contains e "server epoch mismatch" = true
        · right
          simp [retriesScheduled, retriesScheduled_logged, hD, hI, hc]
        · left
          simp [retriesScheduled, retriesScheduled_logged, hD, hI, hc]
      | ok reply =>
        right
        simp [retriesScheduled, retriesScheduled_logged, hD, hI]

/-- C9: either address resolution, dial and invocation all succeed, and then
`sendRequest` puts exactly one response on the completion queue, tagged with
the epoch, target node id, link kind and input of the request and carrying
the reply; or one of them fails (an invocation failing with an epoch mismatch
included) and nothing is put on the queue. -/
theorem C9_response_pushed_iff_success (env : Remote) (f : framework) (dr : dataRequest) :
    (∃ addr cc reply, env.GetAddress f.name dr.taskID = .ok addr ∧
        env.Dial addr = .ok cc ∧
        env.Invoke dr.method dr.input (env.CreateOutputMessage dr.method) cc = .ok reply ∧
        responsesPushed (sendRequest env f dr)
          = [{ dataResponse.zero with
                epoch := dr.epoch, taskID := dr.taskID, linkType := dr.linkType,
                input := dr.input, output := reply }])
      ∨ ((¬ ∃ addr cc reply, env.GetAddress f.name dr.taskID = .ok addr ∧
          env.Dial addr = .ok cc ∧
          env.Invoke dr.method dr.input (env.CreateOutputMessage dr.method) cc = .ok reply)
        ∧ responsesPushed (sendRequest env f dr) = []) := by
  unfold sendRequest
  cases hA : env.GetAddress f.name dr.taskID with
  | error e =>
    right
    simp [responsesPushed]
  | ok addr =>
    cases hD : env.Dial addr with
    | error e =>
      right
      simp [responsesPushed, responsesPushed_logged, hD]
    | ok cc =>
      cases hI : env.Invoke dr.method dr.input (env.CreateOutputMessage dr.method) cc with
      | error e =>
        right
        by_cases hc : strings.Contains e "server epoch mismatch" = true
        · simp [responsesPushed, responsesPushed_logged, hD, hI, hc]
        · simp [responsesPushed, responsesPushed_logged, hD, hI, hc]
      | ok reply =>
        left
        simp [responsesPushed, responsesPushed_logged, hD, hI]

/-- C10, as the code behaves: the payload is already in the buffered channel
when the goroutine starts, so with the epoch-passed signal fired both cases
of the `select` can proceed; in the run that takes the payload case the
response is put on the queue of responses to send. -/
theorem C10_response_enqueued_after_epoch_passed :
    handleDataReq (fun _ _ _ => (some [7], none))
        ⟨1, 4, "Parents", "getD", false, "", [], 9⟩ true SelectCase.dataReceiver
      = some [Effect.dataRespToSendChan
          { dataResponse.zero with
            taskID := 1, epoch := 4, req := "getD", data := some [7], dataChan := 9 }] := by
  decide

/-- C10, amended: when the task serves the request without error and the
epoch-passed signal has fired before the `select` of the forwarding goroutine
runs, the goroutine terminates whichever case the `select` takes.  In the
run that takes the epoch-passed case nothing is put on the queue of responses
to send.  The payload case can be taken as well: a `nil` payload is then
dropped, and any other payload is put on the queue once, with the task id,
epoch, request key and response channel of the request. -/
theorem C10_forwarding_after_epoch_passed
    (Serve : Nat → String → String → Bytes × Option String) (dr : dataRequest) (b : Bytes)
    (hserve : Serve dr.taskID dr.linkType dr.req = (b, none)) :
    handleDataReq Serve dr true SelectCase.epochPassed = some []
      ∧ handleDataReq Serve dr true SelectCase.dataReceiver
        = some (if b = none then []
            else [Effect.dataRespToSendChan
              { dataResponse.zero with
                taskID := dr.taskID, epoch := dr.epoch, req := dr.req, data := b,
                dataChan := dr.dataChan }]) := by
  constructor
  · simp [handleDataReq, hserve, Chan.make, Chan.send, handleDataReq.goroutine]
  · cases b with
    | none => simp [handleDataReq, hserve, Chan.make, Chan.send, handleDataReq.goroutine, Chan.recv]
    | some v =>
      simp [handleDataReq, hserve, Chan.make, Chan.send, handleDataReq.goroutine, Chan.recv]

/-- Witness of C10: the task serves the payload `[7]` for a request of epoch
4, and the epoch-passed signal has fired. -/
theorem C10_forwarding_after_epoch_passed_witness :
    handleDataReq (fun _ _ _ => (some [7], none))
        ⟨1, 4, "Parents", "getD", false, "", [], 9⟩ true SelectCase.epochPassed = some []
      ∧ handleDataReq (fun _ _ _ => (some [7], none))
          ⟨1, 4, "Parents", "getD", false, "", [], 9⟩ true SelectCase.dataReceiver
        = some (if (some [7] : Bytes) = none then []
            else [Effect.dataRespToSendChan
              { dataResponse.zero with
                taskID := (⟨1, 4, "Parents", "getD", false, "", [], 9⟩ : dataRequest).taskID,
                epoch := (⟨1, 4, "Parents", "getD", false, "", [], 9⟩ : dataRequest).epoch,
                req := (⟨1, 4, "Parents", "getD", false, "", [], 9⟩ : dataRequest).req,
                data := some [7],
                dataChan := (⟨1, 4, "Parents", "getD", false, "", [], 9⟩ : dataRequest).dataChan }]) :=
  C10_forwarding_after_epoch_passed (fun _ _ _ => (some [7], none))
    ⟨1, 4, "Parents", "getD", false, "", [], 9⟩ (some [7]) rfl

/-! ## Requests, serving and the barrier over a whole epoch -/

/-- The request loop issues one request per index from `index` up to
`numOfTasks`, in increasing order. -/
theorem SetEpoch.loop_requests (numOfTasks : Nat) (req : String) :
    ∀ (k index : Nat), numOfTasks - index = k →
      SetEpoch.loop numOfTasks req index
        = (List.range' index (numOfTasks - index)).map (fun i => Call.DataRequest i req) := by
  intro k
  induction k with
  | zero =>
    intro index hk
    rw [SetEpoch.loop]
    have : ¬ index < numOfTasks := by omega
    simp [this, hk]
  | succ k ih =>
    intro index hk
    rw [SetEpoch.loop]
    have hlt : index < numOfTasks := by omega
    have hstep : numOfTasks - index = (numOfTasks - (index + 1)) + 1 := by omega
    rw [if_pos hlt, ih (index + 1) (by omega), hstep, List.range'_succ]
    simp

/-- The data requests among requests only. -/
theorem dataRequests_map (req : String) (l : List Nat) (rest : List Call) :
    dataRequests (l.map (fun i => Call.DataRequest i req) ++ rest)
      = l.map (fun i => (i, req)) ++ dataRequests rest := by
  induction l with
  | nil => simp
  | cons a l ih => simp [dataRequests, ih]

/-- The data requests of `SetEpoch`: one to every id below `numOfTasks`, in
increasing order, with the request string chosen by the parity of the epoch. -/
theorem dataRequests_SetEpoch (this : bwmfTask) (epoch : Nat) :
    dataRequests (this.SetEpoch epoch).2
      = (List.range this.numOfTasks).map
          (fun i => (i, if epoch % 2 = 0 then "getD" else "getT")) := by
  unfold bwmfTask.SetEpoch
  by_cases he : epoch % 2 = 0
  · simp [he, dataRequests, SetEpoch.loop_requests this.numOfTasks "getD" this.numOfTasks 0 rfl,
      dataRequests_map, List.range_eq_range']
  · simp [he, dataRequests, SetEpoch.loop_requests this.numOfTasks "getT" this.numOfTasks 0 rfl,
      dataRequests_map, List.range_eq_range']

/-- C11, as the code behaves: for three nodes, `SetEpoch` on node 1 issues
three data requests, one of them to node 1 itself, and constructs the latch
with expected count 3. -/
theorem C11_SetEpoch_requests_itself :
    dataRequests (bwmfTask.SetEpoch { GetTask 1 with taskID := 1, numOfTasks := 3 } 0).2
        = [(0, "getD"), (1, "getD"), (2, "getD")]
      ∧ (bwmfTask.SetEpoch { GetTask 1 with taskID := 1, numOfTasks := 3 } 0).1.dtReady
        = NewCountdownLatch 3 := by
  constructor
  · rw [dataRequests_SetEpoch]; decide
  · simp [bwmfTask.SetEpoch, GetTask, toInt]

/-- C11, amended: for every node count N with 1 ≤ N < 2 ^ 63 and node id t
in [0, N), `SetEpoch` issues exactly N data requests, one to each id in
[0, N) in increasing order, the one to t itself included, and constructs the
latch with expected count N. -/
theorem C11_SetEpoch_requests_every_node (this : bwmfTask) (epoch : Nat)
    (_hN : 1 ≤ this.numOfTasks) (ht : this.taskID < this.numOfTasks)
    (hsize : this.numOfTasks < 2 ^ 63) :
    (dataRequests (this.SetEpoch epoch).2).map Prod.fst = List.range this.numOfTasks
      ∧ (dataRequests (this.SetEpoch epoch).2).length = this.numOfTasks
      ∧ this.taskID ∈ (dataRequests (this.SetEpoch epoch).2).map Prod.fst
      ∧ (this.SetEpoch epoch).1.dtReady = NewCountdownLatch (this.numOfTasks : Int) := by
  have hreq : (dataRequests (this.SetEpoch epoch).2).map Prod.fst
      = List.range this.numOfTasks := by
    rw [dataRequests_SetEpoch, List.map_map]
    exact List.map_id _
  refine ⟨hreq, ?_, ?_, ?_⟩
  · rw [dataRequests_SetEpoch]; simp
  · rw [hreq]; exact List.mem_range.mpr ht
  · have hmod : this.numOfTasks % 2 ^ 64 = this.numOfTasks := Nat.mod_eq_of_lt (by omega)
    simp only [bwmfTask.SetEpoch, toInt, hmod, if_pos hsize]

/-- Witness of C11: three nodes, node 1, epoch 0. -/
theorem C11_SetEpoch_requests_every_node_witness :
    (dataRequests (bwmfTask.SetEpoch { GetTask 1 with taskID := 1, numOfTasks := 3 } 0).2).map
        Prod.fst = List.range 3
      ∧ (dataRequests
          (bwmfTask.SetEpoch { GetTask 1 with taskID := 1, numOfTasks := 3 } 0).2).length = 3
      ∧ 1 ∈ (dataRequests
          (bwmfTask.SetEpoch { GetTask 1 with taskID := 1, numOfTasks := 3 } 0).2).map Prod.fst
      ∧ (bwmfTask.SetEpoch { GetTask 1 with taskID := 1, numOfTasks := 3 } 0).1.dtReady
        = NewCountdownLatch ((3 : Nat) : Int) :=
  C11_SetEpoch_requests_every_node { GetTask 1 with taskID := 1, numOfTasks := 3 } 0
    (by decide) (by decide) (by decide)

/-- C12: for every epoch e, on even epochs `SetEpoch e` requests "getD" from
every node, `ServeAsParent` of a task in epoch e encodes and serves the local
D shard whatever node asks and whatever the request string, and the
goroutine updates the T shard once the latch releases; on odd epochs the
request is "getT", the T shard is served and the D shard is updated. -/
theorem C12_requests_and_serves_agree (this : bwmfTask) (e fromID : Nat) (req : String)
    (Marshal : LocalShard → Bytes × Option String) :
    (e % 2 = 0
        ∧ dataRequests (this.SetEpoch e).2
          = (List.range this.numOfTasks).map (fun i => (i, LocalShard.shardedD.request))
        ∧ marshalled ((this.SetEpoch e).1.ServeAsParent fromID req Marshal)
          = [LocalShard.shardedD]
        ∧ served ((this.SetEpoch e).1.ServeAsParent fromID req Marshal)
          = (if (Marshal LocalShard.shardedD).2 = none then [(Marshal LocalShard.shardedD).1]
              else [])
        ∧ SetEpoch.goroutine (this.SetEpoch e).1
          = [Call.localCompute, LocalShard.shardedT.update, Call.FlagMetaToParent "computed"])
      ∨ (e % 2 = 1
        ∧ dataRequests (this.SetEpoch e).2
          = (List.range this.numOfTasks).map (fun i => (i, LocalShard.shardedT.request))
        ∧ marshalled ((this.SetEpoch e).1.ServeAsParent fromID req Marshal)
          = [LocalShard.shardedT]
        ∧ served ((this.SetEpoch e).1.ServeAsParent fromID req Marshal)
          = (if (Marshal LocalShard.shardedT).2 = none then [(Marshal LocalShard.shardedT).1]
              else [])
        ∧ SetEpoch.goroutine (this.SetEpoch e).1
          = [Call.localCompute, LocalShard.shardedD.update, Call.FlagMetaToParent "computed"]) := by
  have hepoch : (this.SetEpoch e).1.epoch = e := rfl
  by_cases he : e % 2 = 0
  · left
    refine ⟨he, ?_, ?_, ?_, ?_⟩
    · rw [dataRequests_SetEpoch]; simp [he, LocalShard.request]
    · unfold bwmfTask.ServeAsParent
      rw [hepoch, if_pos he]
      rcases hM : Marshal LocalShard.shardedD with ⟨b, _ | err⟩ <;> simp [marshalled]
    · unfold bwmfTask.ServeAsParent
      rw [hepoch, if_pos he]
      rcases hM : Marshal LocalShard.shardedD with ⟨b, _ | err⟩ <;> simp [served]
    · simp [SetEpoch.goroutine, hepoch, he, LocalShard.update]
  · right
    have he1 : e % 2 = 1 := by omega
    refine ⟨he1, ?_, ?_, ?_, ?_⟩
    · rw [dataRequests_SetEpoch]; simp [he, LocalShard.request]
    · unfold bwmfTask.ServeAsParent
      rw [hepoch, if_neg he]
      rcases hM : Marshal LocalShard.shardedT with ⟨b, _ | err⟩ <;> simp [marshalled]
    · unfold bwmfTask.ServeAsParent
      rw [hepoch, if_neg he]
      rcases hM : Marshal LocalShard.shardedT with ⟨b, _ | err⟩ <;> simp [served]
    · simp [SetEpoch.goroutine, hepoch, he, LocalShard.update]

/-- One call of `ChildMetaReady` calls `IncEpoch` once when the map holds at
least `numOfTasks` keys after the announcement is recorded, and makes no call
otherwise. -/
theorem ChildMetaReady_calls (this : bwmfTask) (childID : Nat) (meta : String) :
    (this.ChildMetaReady childID meta).2
      = if this.numOfTasks ≤ (this.ChildMetaReady childID meta).1.childrenReady.len
        then [Call.IncEpoch] else [] := by
  unfold bwmfTask.ChildMetaReady
  by_cases hm : meta = "computed"
  · simp only [hm, if_true]
    split
    · rename_i hlt
      dsimp only
      rw [if_neg (Nat.not_le_of_lt hlt)]
    · rename_i hlt
      dsimp only
      rw [if_pos (Nat.le_of_not_lt hlt)]
  · simp only [hm, if_false]
    split
    · rename_i hlt
      dsimp only
      rw [if_neg (Nat.not_le_of_lt hlt)]
    · rename_i hlt
      dsimp only
      rw [if_pos (Nat.le_of_not_lt hlt)]

/-- The calls made by a sequence of `ChildMetaReady` calls, position by
position: `IncEpoch` is called at a position exactly when the keys present
before the sequence together with the ids announced as computed up to that
position are at least `numOfTasks` many. -/
theorem runChildMetaReady_eq (calls : List (Nat × String)) :
    ∀ (this : bwmfTask), this.childrenReady.keys.Nodup →
      runChildMetaReady this calls
        = (List.range calls.length).map (fun k =>
            if this.numOfTasks
                ≤ (this.childrenReady.keys.toFinset
                    ∪ (computedIDs (calls.take (k + 1))).toFinset).card
            then [Call.IncEpoch] else []) := by
  induction calls with
  | nil =>
    intro this _
    simp [runChildMetaReady]
  | cons c rest ih =>
    obtain ⟨childID, meta⟩ := c
    intro this hnd
    have hnd1 := ChildMetaReady_nodup this childID meta hnd
    have hhead : computedIDs (List.take (0 + 1) ((childID, meta) :: rest))
        = recorded childID meta := by
      rw [show List.take (0 + 1) ((childID, meta) :: rest) = [(childID, meta)] from by simp,
        computedIDs_cons]
      simp [computedIDs]
    simp only [runChildMetaReady, List.length_cons, List.range_succ_eq_map, List.map_cons,
      List.map_map]
    congr 1
    · rw [ChildMetaReady_calls, GoMap.len_eq_card _ hnd1, ChildMetaReady_keys, hhead]
    · rw [ih _ hnd1]
      apply List.map_congr_left
      intro k _
      simp only [Function.comp_apply, ChildMetaReady_numOfTasks, ChildMetaReady_keys,
        List.take_succ_cons, computedIDs_cons, List.toFinset_append, Finset.union_assoc,
        Nat.succ_eq_add_one]

/-- The number of `IncEpoch` calls when each position calls it once or not at
all. -/
theorem incEpochCount_map (p : Nat → Prop) [DecidablePred p] (l : List Nat) :
    incEpochCount (l.map (fun k => if p k then [Call.IncEpoch] else []))
      = (l.filter (fun k => decide (p k))).length := by
  unfold incEpochCount
  induction l with
  | nil => simp
  | cons a l ih =>
    simp only [List.map_cons, List.sum_cons, List.map_map] at ih ⊢
    by_cases ha : p a
    · simp [ha, List.filter_cons, ih]; omega
    · simp [ha, List.filter_cons, ih]

/-- C13, as the code behaves: with two nodes, after the announcements of
nodes 0 and 1 have completed the quorum, a duplicate announcement and an
announcement with another meta each call `IncEpoch` again: three calls of
`IncEpoch` between two `SetEpoch` calls. -/
theorem C13_IncEpoch_called_again_after_quorum :
    ¬ incEpochCount
        (runChildMetaReady (bwmfTask.SetEpoch { GetTask 0 with numOfTasks := 2 } 0).1
          [(0, "computed"), (1, "computed"), (1, "computed"), (0, "started")]) ≤ 1 := by
  decide

/-- C13, amended: between two `SetEpoch` calls, each `ChildMetaReady` call
calls `IncEpoch` once when at least `numOfTasks` distinct child ids have
announced "computed" up to and including that call, and not at all
otherwise.  The number of `IncEpoch` calls in the sequence is therefore the
number of calls made from the one that completes the quorum on, duplicate
announcements and announcements with another meta included. -/
theorem C13_IncEpoch_once_per_call_after_quorum (this : bwmfTask) (epoch : Nat)
    (calls : List (Nat × String)) :
    runChildMetaReady (this.SetEpoch epoch).1 calls
        = (List.range calls.length).map (fun k =>
            if this.numOfTasks ≤ (computedIDs (calls.take (k + 1))).toFinset.card
            then [Call.IncEpoch] else [])
      ∧ incEpochCount (runChildMetaReady (this.SetEpoch epoch).1 calls)
        = ((List.range calls.length).filter (fun k =>
            decide (this.numOfTasks ≤ (computedIDs (calls.take (k + 1))).toFinset.card))).length := by
  have h := runChildMetaReady_eq calls (this.SetEpoch epoch).1
    (by simp [bwmfTask.SetEpoch, GoMap.keys])
  have h2 : runChildMetaReady (this.SetEpoch epoch).1 calls
      = (List.range calls.length).map (fun k =>
          if this.numOfTasks ≤ (computedIDs (calls.take (k + 1))).toFinset.card
          then [Call.IncEpoch] else []) := by
    simpa [bwmfTask.SetEpoch, GoMap.keys] using h
  refine ⟨h2, ?_⟩
  rw [h2]
  exact incEpochCount_map
    (fun k => this.numOfTasks ≤ (computedIDs (calls.take (k + 1))).toFinset.card) _

end Taskgraph
